import Mathlib

/-
Formal model of the Localprint backend (src/main.py and src/schemas.py).

Modelling conventions:
- Python floats are modelled as exact rationals (ℚ), Python ints as ℤ / ℕ.
- MongoDB collections are Lean lists kept in insertion (natural) order;
  find_one / update_one act on the first matching document.
- bson.ObjectId("...") is modelled by decoding the 24-character hex string into
  its 12 bytes (objectIdOfString); two strings denote the same ObjectId exactly
  when they decode to the same bytes.
- Each HTTP handler is a pure function from (database state, parsed request
  body) to (response, database state); raising HTTPException is modelled by an
  error response paired with the unchanged state, since the handlers raise
  before any write.
- The repository's database.py is not part of src/; its operations
  create_document / get_documents are modelled from the spec's document-store
  adapter contract: create appends one document, find returns the documents
  matching the filter capped at the given limit.
-/

/-- ASCII whitespace skipped by Python bytes.fromhex between byte pairs. -/
def isPySpace (c : Char) : Bool :=
  c == ' ' || c == '\t' || c == '\n' || c == '\r' || c == '\x0b' || c == '\x0c'

/-- Numeric value of one hexadecimal digit (upper or lower case), as accepted
    by Python bytes.fromhex. -/
def hexVal (c : Char) : Option ℕ :=
  if '0' ≤ c ∧ c ≤ '9' then some (c.toNat - 48)
  else if 'a' ≤ c ∧ c ≤ 'f' then some (c.toNat - 87)
  else if 'A' ≤ c ∧ c ≤ 'F' then some (c.toNat - 55)
  else none

/-- Python bytes.fromhex: two hexadecimal digits per byte, ASCII whitespace
    allowed between pairs; returns the decoded bytes. -/
def fromhex : List Char → Option (List ℕ)
  | [] => some []
  | c :: cs =>
    if isPySpace c then fromhex cs
    else
      match hexVal c, cs with
      | some hi, c2 :: cs2 =>
        match hexVal c2 with
        | some lo => (fromhex cs2).map (fun bs => (16 * hi + lo) :: bs)
        | none => none
      | _, _ => none

/-- bson.ObjectId(s) for a string s (bson/objectid.py): valid exactly when s has
    24 characters and bytes.fromhex accepts it; the value of the ObjectId is the
    decoded byte sequence, which is what _id equality compares. -/
def objectIdOfString (s : String) : Option (List ℕ) :=
  if s.length = 24 then fromhex s.data else none

/-- str(ObjectId): the bytes rendered as lowercase hex. -/
def hexDigitChar (n : ℕ) : Char :=
  if n < 10 then Char.ofNat (48 + n) else Char.ofNat (87 + n)

/-- Lowercase-hex string form of an ObjectId's bytes. -/
def oidString (b : List ℕ) : String :=
  ⟨b.foldr (fun v acc => hexDigitChar (v / 16) :: hexDigitChar (v % 16) :: acc) []⟩

/-- A document of the "provider" collection, with the fields written by
    create_provider. -/
structure ProviderDoc where
  display_name : String
  city : String
  description : Option String
  price_per_page : ℚ
  color_supported : Bool
  duplex : Bool
  rating : ℚ
  reviews_count : ℕ
deriving DecidableEq

/-- A document of the "review" collection, as inserted by create_review. -/
structure ReviewDoc where
  provider_id : String
  reviewer_name : String
  rating : ℤ
  comment : Option String
deriving DecidableEq

/-- A document of the "printrequest" collection, as inserted by
    create_print_request. -/
structure PrintRequestDoc where
  provider_id : String
  requester_name : String
  requester_email : String
  pages : ℤ
  color : String
  notes : Option String
deriving DecidableEq

/-- The database: one list per collection, in insertion order. -/
structure DB where
  providers : List (List ℕ × ProviderDoc)
  reviews : List ReviewDoc
  printrequests : List PrintRequestDoc
deriving DecidableEq

/-- db["provider"].find_one({"_id": oid}): the first provider document whose
    _id equals oid, in natural order. -/
def findP : List (List ℕ × ProviderDoc) → List ℕ → Option ProviderDoc
  | [], _ => none
  | (i, p) :: rest, oid => if i = oid then some p else findP rest oid

/-- db["provider"].update_one({"_id": oid}, {"$set": {"rating": r,
    "reviews_count": c}}): updates the first matching document. -/
def update_provider_aggregate :
    List (List ℕ × ProviderDoc) → List ℕ → ℚ → ℕ → List (List ℕ × ProviderDoc)
  | [], _, _, _ => []
  | (i, p) :: rest, oid, r, c =>
    if i = oid then (i, { p with rating := r, reviews_count := c }) :: rest
    else (i, p) :: update_provider_aggregate rest oid r c

/-- Request body of POST /api/reviews as parsed by main.py's ReviewCreate
    model: provider_id, reviewer_name, an UNCONSTRAINED integer rating, and an
    optional comment.  (schemas.Review declares rating with ge=1, le=5, but the
    endpoint does not use that model.) -/
structure ReviewCreateIn where
  provider_id : String
  reviewer_name : String
  rating : ℤ
  comment : Option String
deriving DecidableEq

/-- Request body of POST /api/print-requests as parsed by main.py's
    PrintRequestCreate model: requester_email is a plain string, pages an
    unconstrained integer, color a plain string defaulting to "bw".
    (schemas.PrintRequest declares EmailStr, pages ge=1 and a Literal color,
    but the endpoint does not use that model.) -/
structure PrintRequestCreateIn where
  provider_id : String
  requester_name : String
  requester_email : String
  pages : ℤ
  color : String
  notes : Option String
deriving DecidableEq

/-- Raw JSON payload of POST /api/providers.  The rating and reviews_count
    components model extra keys a caller may include in the JSON body; main.py's
    ProviderCreate declares neither field. -/
structure ProviderCreateRaw where
  display_name : String
  city : String
  description : Option String
  price_per_page : ℚ
  color_supported : Bool
  duplex : Bool
  rating : Option ℚ
  reviews_count : Option ℕ
deriving DecidableEq

/-- main.py's ProviderCreate pydantic model: only the six declared fields. -/
structure ProviderCreate where
  display_name : String
  city : String
  description : Option String
  price_per_page : ℚ
  color_supported : Bool
  duplex : Bool
deriving DecidableEq

/-- Parsing a raw payload with ProviderCreate: pydantic's default configuration
    ignores unknown keys, so caller-supplied rating / reviews_count never reach
    the parsed model. -/
def parseProviderCreate (raw : ProviderCreateRaw) : ProviderCreate :=
  { display_name := raw.display_name
    city := raw.city
    description := raw.description
    price_per_page := raw.price_per_page
    color_supported := raw.color_supported
    duplex := raw.duplex }

/-- Errors raised by the handlers: HTTP 400 "Invalid provider_id" and
    HTTP 404 "Provider not found". -/
inductive ApiError
  | invalidProviderId
  | providerNotFound
deriving DecidableEq

/-- Python round(q, 2) on an exact rational: round half to even at two decimal
    digits.  rhe is the integer rounding (nearest integer, ties to the even
    one), exactly round(x) in Python. -/
def rhe (q : ℚ) : ℤ :=
  if q - ⌊q⌋ < 1/2 then ⌊q⌋
  else if 1/2 < q - ⌊q⌋ then ⌊q⌋ + 1
  else if ⌊q⌋ % 2 = 0 then ⌊q⌋ else ⌊q⌋ + 1

/-- round(q, 2): round-half-even applied to 100·q, divided back by 100. -/
def round2 (q : ℚ) : ℚ := (rhe (q * 100) : ℚ) / 100

/-- POST /api/providers (main.py create_provider): model_dump() of the parsed
    body, then data.update({"rating": 0.0, "reviews_count": 0}), then one
    insert.  newId is the ObjectId generated by the store for the new document;
    the handler returns {"id": str(newId)}. -/
def create_provider (st : DB) (newId : List ℕ) (raw : ProviderCreateRaw) :
    String × DB :=
  let pc := parseProviderCreate raw
  let doc : ProviderDoc :=
    { display_name := pc.display_name
      city := pc.city
      description := pc.description
      price_per_page := pc.price_per_page
      color_supported := pc.color_supported
      duplex := pc.duplex
      rating := 0
      reviews_count := 0 }
  (oidString newId, { st with providers := st.providers ++ [(newId, doc)] })

/-- review.model_dump(): the review document inserted by create_review. -/
def mkReviewDoc (inp : ReviewCreateIn) : ReviewDoc :=
  { provider_id := inp.provider_id
    reviewer_name := inp.reviewer_name
    rating := inp.rating
    comment := inp.comment }

/-- payload.model_dump(): the document inserted by create_print_request. -/
def mkPrintRequestDoc (inp : PrintRequestCreateIn) : PrintRequestDoc :=
  { provider_id := inp.provider_id
    requester_name := inp.requester_name
    requester_email := inp.requester_email
    pages := inp.pages
    color := inp.color
    notes := inp.notes }

/-- sum(int(r.get("rating", 0)) for r in reviews): every stored review document
    carries a rating field, so the default is never used. -/
def ratingsSum (l : List ReviewDoc) : ℤ := (l.map (fun r => r.rating)).sum

/-- POST /api/reviews (main.py create_review):
    1. ObjectId(review.provider_id); failure raises HTTP 400 before any write;
    2. find_one on the provider collection; absence raises HTTP 404;
    3. insert the review document;
    4. fetch all reviews whose provider_id field equals the submitted string
       (no limit), and if that list is nonempty write rating = round(mean, 2)
       and reviews_count = count onto the provider document. -/
def create_review (st : DB) (inp : ReviewCreateIn) : Except ApiError Unit × DB :=
  match objectIdOfString inp.provider_id with
  | none => (Except.error ApiError.invalidProviderId, st)
  | some oid =>
    match findP st.providers oid with
    | none => (Except.error ApiError.providerNotFound, st)
    | some _ =>
      let st1 : DB := { st with reviews := st.reviews ++ [mkReviewDoc inp] }
      let revs := st1.reviews.filter (fun r => r.provider_id == inp.provider_id)
      if revs.isEmpty then (Except.ok (), st1)
      else
        let avg : ℚ := (ratingsSum revs : ℚ) / (revs.length : ℚ)
        (Except.ok (),
          { st1 with
            providers :=
              update_provider_aggregate st1.providers oid (round2 avg) revs.length })

/-- POST /api/print-requests (main.py create_print_request): same reference
    validation as create_review, then a single insert, no aggregation. -/
def create_print_request (st : DB) (inp : PrintRequestCreateIn) :
    Except ApiError Unit × DB :=
  match objectIdOfString inp.provider_id with
  | none => (Except.error ApiError.invalidProviderId, st)
  | some oid =>
    match findP st.providers oid with
    | none => (Except.error ApiError.providerNotFound, st)
    | some _ =>
      (Except.ok (), { st with printrequests := st.printrequests ++ [mkPrintRequestDoc inp] })

/-- One position of a case-insensitive regex match: pattern characters against
    a prefix of the text, where '.' matches any character and a literal
    character matches up to ASCII case (the "i" option).  This models MongoDB's
    $regex operator (PCRE) restricted to patterns built from literal characters
    and the metacharacter '.'; every pattern appearing in this development is in
    that fragment. -/
def maskPrefixAt : List Char → List Char → Bool
  | [], _ => true
  | _ :: _, [] => false
  | p :: ps, t :: ts => (p == '.' || p.toLower == t.toLower) && maskPrefixAt ps ts

/-- {"city": {"$regex": pat, "$options": "i"}}: the pattern matches somewhere
    in the text. -/
def regexMatchI (pat text : String) : Bool :=
  (List.range (text.data.length + 1)).any (fun i => maskPrefixAt pat.data (text.data.drop i))

/-- Case-insensitive prefix test on character lists (needle against hay). -/
def lcPrefixAt : List Char → List Char → Bool
  | [], _ => true
  | _ :: _, [] => false
  | a :: as, b :: bs => (a.toLower == b.toLower) && lcPrefixAt as bs

/-- The spec's wording for the city filter: needle occurs somewhere in hay,
    compared case-insensitively.  Stated from the spec, to be compared with the
    regex-based filter the code actually runs. -/
def containsCI (hay needle : String) : Bool :=
  (List.range (hay.data.length + 1)).any (fun i => lcPrefixAt needle.data (hay.data.drop i))

/-- Response model ProviderPublic of GET /api/providers: the stored fields plus
    the document id rendered as a string. -/
structure ProviderPublic where
  id : String
  display_name : String
  city : String
  description : Option String
  price_per_page : ℚ
  color_supported : Bool
  duplex : Bool
  rating : ℚ
  reviews_count : ℕ
deriving DecidableEq

/-- Marshalling of one stored provider document into ProviderPublic
    (to_str_id plus the field-by-field construction in list_providers; every
    stored document carries all fields, so the .get defaults never apply). -/
def toPublic (x : List ℕ × ProviderDoc) : ProviderPublic :=
  { id := oidString x.1
    display_name := x.2.display_name
    city := x.2.city
    description := x.2.description
    price_per_page := x.2.price_per_page
    color_supported := x.2.color_supported
    duplex := x.2.duplex
    rating := x.2.rating
    reviews_count := x.2.reviews_count }

/-- The filter document built by list_providers: {} when the city parameter is
    absent or empty (Python truthiness of Optional[str]), otherwise the
    case-insensitive $regex filter. -/
def providerMatches (city : Option String) (p : ProviderDoc) : Bool :=
  match city with
  | none => true
  | some c => if c = "" then true else regexMatchI c p.city

/-- GET /api/providers (main.py list_providers): get_documents("provider",
    filter, limit=50) — the matching documents capped at 50 — marshalled with
    toPublic. -/
def list_providers (st : DB) (city : Option String) : List ProviderPublic :=
  ((st.providers.filter (fun x => providerMatches city x.2)).take 50).map toPublic

/-- GET /api/reviews (main.py list_reviews): get_documents("review",
    {"provider_id": provider_id}, limit=50).  The documents' stored fields are
    returned; the store-generated _id is not modelled, as no claim concerns it. -/
def list_reviews (st : DB) (provider_id : String) : List ReviewDoc :=
  (st.reviews.filter (fun r => r.provider_id == provider_id)).take 50

/-- The rating constraint of schemas.Review (Field(..., ge=1, le=5)) applied to
    a POST /api/reviews body: the validation the spec says the endpoint
    performs. -/
def reviewSchemaRatingOk (inp : ReviewCreateIn) : Bool :=
  1 ≤ inp.rating && inp.rating ≤ 5

/-- The pages and color constraints of schemas.PrintRequest (pages ge=1, color
    a Literal of "bw" / "color") applied to a POST /api/print-requests body.
    The EmailStr constraint on requester_email is not modelled; the claims are
    settled on the pages / color constraints alone. -/
def printRequestSchemaOk (inp : PrintRequestCreateIn) : Bool :=
  (1 ≤ inp.pages) && (inp.color == "bw" || inp.color == "color")

/-- Processing a sequence of POST /api/reviews calls in order, keeping the
    final database state. -/
def processReviews (st : DB) (inps : List ReviewCreateIn) : DB :=
  inps.foldl (fun s i => (create_review s i).2) st

/-- The list of review documents fetched by create_review right after its
    insert: all stored reviews (old ones plus the new one) whose provider_id
    string equals the submitted one. -/
def fetchedAfter (st : DB) (inp : ReviewCreateIn) : List ReviewDoc :=
  (st.reviews ++ [mkReviewDoc inp]).filter (fun r => r.provider_id == inp.provider_id)

/-- The database state produced by a successful create_review call. -/
def stepDB (st : DB) (inp : ReviewCreateIn) (oid : List ℕ) : DB :=
  { st with
    reviews := st.reviews ++ [mkReviewDoc inp]
    providers :=
      update_provider_aggregate st.providers oid
        (round2 ((ratingsSum (fetchedAfter st inp) : ℚ) / ((fetchedAfter st inp).length : ℚ)))
        (fetchedAfter st inp).length }

theorem fetchedAfter_mem (st : DB) (inp : ReviewCreateIn) :
    mkReviewDoc inp ∈ fetchedAfter st inp := by
  apply List.mem_filter.mpr
  refine ⟨List.mem_append_right _ (List.mem_singleton_self _), ?_⟩
  simp [mkReviewDoc]

theorem fetchedAfter_ne_nil (st : DB) (inp : ReviewCreateIn) :
    fetchedAfter st inp ≠ [] :=
  List.ne_nil_of_mem (fetchedAfter_mem st inp)

theorem fetchedAfter_isEmpty_false (st : DB) (inp : ReviewCreateIn) :
    (fetchedAfter st inp).isEmpty = false := by
  rcases h : fetchedAfter st inp with _ | ⟨a, l⟩
  · exact absurd h (fetchedAfter_ne_nil st inp)
  · rfl

theorem create_review_badid (st : DB) (inp : ReviewCreateIn)
    (h : objectIdOfString inp.provider_id = none) :
    create_review st inp = (Except.error ApiError.invalidProviderId, st) := by
  simp [create_review, h]

theorem create_review_notfound (st : DB) (inp : ReviewCreateIn) (oid : List ℕ)
    (h1 : objectIdOfString inp.provider_id = some oid)
    (h2 : findP st.providers oid = none) :
    create_review st inp = (Except.error ApiError.providerNotFound, st) := by
  simp [create_review, h1, h2]

theorem create_print_request_badid (st : DB) (inp : PrintRequestCreateIn)
    (h : objectIdOfString inp.provider_id = none) :
    create_print_request st inp = (Except.error ApiError.invalidProviderId, st) := by
  simp [create_print_request, h]

theorem create_print_request_notfound (st : DB) (inp : PrintRequestCreateIn) (oid : List ℕ)
    (h1 : objectIdOfString inp.provider_id = some oid)
    (h2 : findP st.providers oid = none) :
    create_print_request st inp = (Except.error ApiError.providerNotFound, st) := by
  simp [create_print_request, h1, h2]

theorem create_review_ok (st : DB) (inp : ReviewCreateIn) (oid : List ℕ) (p : ProviderDoc)
    (h1 : objectIdOfString inp.provider_id = some oid)
    (h2 : findP st.providers oid = some p) :
    create_review st inp = (Except.ok (), stepDB st inp oid) := by
  have hne := fetchedAfter_isEmpty_false st inp
  simp only [fetchedAfter] at hne
  simp only [create_review, h1, h2, stepDB, fetchedAfter, hne, Bool.false_eq_true,
    if_false]

theorem findP_update (ps : List (List ℕ × ProviderDoc)) (oid : List ℕ) (r : ℚ) (c : ℕ) :
    findP (update_provider_aggregate ps oid r c) oid =
      (findP ps oid).map (fun p => { p with rating := r, reviews_count := c }) := by
  induction ps with
  | nil => rfl
  | cons hd tl ih =>
    obtain ⟨i, p⟩ := hd
    by_cases h : i = oid
    · subst h
      simp [update_provider_aggregate, findP]
    · simp [update_provider_aggregate, findP, h, ih]

theorem update_update (ps : List (List ℕ × ProviderDoc)) (oid : List ℕ)
    (r : ℚ) (c : ℕ) (r2 : ℚ) (c2 : ℕ) :
    update_provider_aggregate (update_provider_aggregate ps oid r c) oid r2 c2 =
      update_provider_aggregate ps oid r2 c2 := by
  induction ps with
  | nil => rfl
  | cons hd tl ih =>
    obtain ⟨i, p⟩ := hd
    by_cases h : i = oid
    · subst h
      simp [update_provider_aggregate]
    · simp [update_provider_aggregate, h, ih]

theorem processReviews_run (s : String) (oid : List ℕ)
    (hs : objectIdOfString s = some oid) :
    ∀ (inps : List ReviewCreateIn) (st : DB) (ps0 : List (List ℕ × ProviderDoc))
      (done : List ReviewDoc),
      (∀ i ∈ inps, i.provider_id = s) →
      (findP ps0 oid).isSome = true →
      st.reviews.filter (fun r => r.provider_id == s) = done →
      (st.providers = ps0 ∨ ∃ a b, st.providers = update_provider_aggregate ps0 oid a b) →
      (processReviews st inps).reviews = st.reviews ++ inps.map mkReviewDoc ∧
      (inps = [] → processReviews st inps = st) ∧
      (inps ≠ [] →
        (processReviews st inps).providers =
          update_provider_aggregate ps0 oid
            (round2 ((ratingsSum (done ++ inps.map mkReviewDoc) : ℚ) /
              ((done ++ inps.map mkReviewDoc).length : ℚ)))
            (done ++ inps.map mkReviewDoc).length) := by
  intro inps
  induction inps with
  | nil =>
    intro st ps0 done hall hfind hdone hps
    exact ⟨by simp [processReviews], fun _ => rfl, fun h => absurd rfl h⟩
  | cons i rest ih =>
    intro st ps0 done hall hfind hdone hps
    have his : i.provider_id = s := hall i (List.mem_cons_self i rest)
    have hfindst : ∃ p, findP st.providers oid = some p := by
      rcases hps with h | ⟨a, b, h⟩
      · rw [h]
        exact Option.isSome_iff_exists.mp hfind
      · rcases Option.isSome_iff_exists.mp hfind with ⟨p, hp⟩
        refine ⟨{ p with rating := a, reviews_count := b }, ?_⟩
        rw [h, findP_update, hp]
        rfl
    rcases hfindst with ⟨p, hp⟩
    have hstep : create_review st i = (Except.ok (), stepDB st i oid) :=
      create_review_ok st i oid p (by rw [his]; exact hs) hp
    have hPR : processReviews st (i :: rest) = processReviews (stepDB st i oid) rest := by
      simp [processReviews, hstep]
    have hfetch : fetchedAfter st i = done ++ [mkReviewDoc i] := by
      simp only [fetchedAfter, List.filter_append]
      congr 1
      · rw [his]
        exact hdone
      · simp [mkReviewDoc]
    have hprov1 : (stepDB st i oid).providers =
        update_provider_aggregate ps0 oid
          (round2 ((ratingsSum (done ++ [mkReviewDoc i]) : ℚ) /
            ((done ++ [mkReviewDoc i]).length : ℚ)))
          (done ++ [mkReviewDoc i]).length := by
      have h0 : (stepDB st i oid).providers =
          update_provider_aggregate st.providers oid
            (round2 ((ratingsSum (fetchedAfter st i) : ℚ) /
              ((fetchedAfter st i).length : ℚ)))
            (fetchedAfter st i).length := rfl
      rw [h0, hfetch]
      rcases hps with h | ⟨a, b, h⟩
      · rw [h]
      · rw [h, update_update]
    have hrev1 : (stepDB st i oid).reviews = st.reviews ++ [mkReviewDoc i] := rfl
    have hdone1 : (stepDB st i oid).reviews.filter (fun r => r.provider_id == s) =
        done ++ [mkReviewDoc i] := by
      rw [hrev1, List.filter_append, hdone]
      simp [mkReviewDoc, his]
    have hall1 : ∀ j ∈ rest, j.provider_id = s := fun j hj => hall j (List.mem_cons_of_mem i hj)
    obtain ⟨ihrev, ihnil, ihprov⟩ :=
      ih (stepDB st i oid) ps0 (done ++ [mkReviewDoc i]) hall1 hfind hdone1
        (Or.inr ⟨_, _, hprov1⟩)
    refine ⟨?_, ?_, ?_⟩
    · rw [hPR, ihrev, hrev1]
      simp
    · intro h
      exact absurd h (List.cons_ne_nil i rest)
    · intro _
      rw [hPR]
      rcases Decidable.em (rest = []) with hr | hr
      · subst hr
        have hres : processReviews (stepDB st i oid) [] = stepDB st i oid := rfl
        rw [hres, hprov1]
        simp
      · have hlist : (done ++ [mkReviewDoc i]) ++ rest.map mkReviewDoc =
            done ++ (i :: rest).map mkReviewDoc := by
          simp
        rw [ihprov hr, hlist]

/-- A 12-byte ObjectId whose hex form is 24 times the digit a. -/
def oidA : List ℕ := List.replicate 12 170

/-- The lowercase hex spelling of oidA. -/
def sLo : String := "aaaaaaaaaaaaaaaaaaaaaaaa"

/-- The uppercase hex spelling of oidA: a different string, the same ObjectId. -/
def sUp : String := "AAAAAAAAAAAAAAAAAAAAAAAA"

/-- A provider document as created by create_provider. -/
def provA : ProviderDoc :=
  { display_name := "Jan"
    city := "Amsterdam"
    description := none
    price_per_page := 1
    color_supported := true
    duplex := true
    rating := 0
    reviews_count := 0 }

/-- A database holding exactly the provider provA under id oidA. -/
def stA : DB := { providers := [(oidA, provA)], reviews := [], printrequests := [] }

/-- A 5-star review submitted with the lowercase id string. -/
def revLo : ReviewCreateIn :=
  { provider_id := sLo, reviewer_name := "A", rating := 5, comment := none }

/-- A 1-star review submitted with the uppercase id string. -/
def revUp : ReviewCreateIn :=
  { provider_id := sUp, reviewer_name := "B", rating := 1, comment := none }

/-- A 1-star review submitted with the lowercase id string. -/
def revLo1 : ReviewCreateIn :=
  { provider_id := sLo, reviewer_name := "C", rating := 1, comment := none }

/-- An empty database. -/
def emptyDB : DB := { providers := [], reviews := [], printrequests := [] }

/-- A review whose provider_id is not a well-formed ObjectId string. -/
def revBad : ReviewCreateIn :=
  { provider_id := "zz", reviewer_name := "A", rating := 5, comment := none }

/-- A print request whose provider_id is not a well-formed ObjectId string. -/
def prBad : PrintRequestCreateIn :=
  { provider_id := "zz", requester_name := "R", requester_email := "r@x.nl"
    pages := 1, color := "bw", notes := none }

/-- A print request with a well-formed provider_id. -/
def prLo : PrintRequestCreateIn :=
  { provider_id := sLo, requester_name := "R", requester_email := "r@x.nl"
    pages := 1, color := "bw", notes := none }

/-- C2: create_provider always stores rating = 0 and reviews_count = 0, and its
    entire result is independent of any rating / reviews_count values present
    in the caller's payload. -/
theorem C2_provider_defaults (st : DB) (newId : List ℕ) (raw : ProviderCreateRaw) :
    (∃ doc : ProviderDoc,
      (create_provider st newId raw).2.providers = st.providers ++ [(newId, doc)] ∧
      doc.rating = 0 ∧ doc.reviews_count = 0) ∧
    (∀ r c, create_provider st newId
        { raw with rating := r, reviews_count := c } = create_provider st newId raw) :=
  ⟨⟨_, rfl, rfl, rfl⟩, fun _ _ => rfl⟩

/-- C5: in create_review and create_print_request, a provider_id that is not a
    well-formed ObjectId string yields the HTTP 400 error, and a well-formed one
    that resolves to no stored provider yields the HTTP 404 error; in both
    cases the database is returned unchanged, so nothing is inserted. -/
theorem C5_reference_validation (st : DB) (ri : ReviewCreateIn)
    (pin : PrintRequestCreateIn) :
    (objectIdOfString ri.provider_id = none →
      create_review st ri = (Except.error ApiError.invalidProviderId, st)) ∧
    (∀ oid, objectIdOfString ri.provider_id = some oid → findP st.providers oid = none →
      create_review st ri = (Except.error ApiError.providerNotFound, st)) ∧
    (objectIdOfString pin.provider_id = none →
      create_print_request st pin = (Except.error ApiError.invalidProviderId, st)) ∧
    (∀ oid, objectIdOfString pin.provider_id = some oid → findP st.providers oid = none →
      create_print_request st pin = (Except.error ApiError.providerNotFound, st)) :=
  ⟨create_review_badid st ri,
   fun oid h1 h2 => create_review_notfound st ri oid h1 h2,
   create_print_request_badid st pin,
   fun oid h1 h2 => create_print_request_notfound st pin oid h1 h2⟩

/-- Witness for C5 at concrete inputs: the malformed id "zz" is rejected with
    400 and the well-formed but unknown id is rejected with 404, both on the
    empty database, which is returned unchanged. -/
theorem C5_witness :
    create_review emptyDB revBad = (Except.error ApiError.invalidProviderId, emptyDB) ∧
    create_review emptyDB revLo = (Except.error ApiError.providerNotFound, emptyDB) ∧
    create_print_request emptyDB prBad = (Except.error ApiError.invalidProviderId, emptyDB) ∧
    create_print_request emptyDB prLo = (Except.error ApiError.providerNotFound, emptyDB) := by
  obtain ⟨h1, -, h3, -⟩ := C5_reference_validation emptyDB revBad prBad
  obtain ⟨-, h2, -, h4⟩ := C5_reference_validation emptyDB revLo prLo
  exact ⟨h1 (by decide), h2 oidA (by decide) rfl, h3 (by decide), h4 oidA (by decide) rfl⟩

/-- C7: in a successful create_review run, the post-insert fetch contains at
    least the just-inserted review, hence is non-empty with positive length,
    and the run takes the aggregate-writing branch (never the zero-reviews
    branch, so the mean's denominator is never zero). -/
theorem C7_fetch_nonempty (st : DB) (inp : ReviewCreateIn) (oid : List ℕ) (p : ProviderDoc)
    (h1 : objectIdOfString inp.provider_id = some oid)
    (h2 : findP st.providers oid = some p) :
    mkReviewDoc inp ∈ fetchedAfter st inp ∧
    fetchedAfter st inp ≠ [] ∧
    0 < (fetchedAfter st inp).length ∧
    create_review st inp = (Except.ok (), stepDB st inp oid) :=
  ⟨fetchedAfter_mem st inp, fetchedAfter_ne_nil st inp,
   List.length_pos.mpr (fetchedAfter_ne_nil st inp),
   create_review_ok st inp oid p h1 h2⟩

/-- Witness for C7 at a concrete successful call. -/
theorem C7_witness :
    mkReviewDoc revLo ∈ fetchedAfter stA revLo ∧
    fetchedAfter stA revLo ≠ [] ∧
    0 < (fetchedAfter stA revLo).length ∧
    create_review stA revLo = (Except.ok (), stepDB stA revLo oidA) :=
  C7_fetch_nonempty stA revLo oidA provA (by decide) (by simp [stA, findP])

/-- C1 (amended): for a provider whose id string parses to oid and who has no
    prior reviews stored under the submitted id string, after processing N
    reviews that all carry the SAME provider_id string s, the provider record
    holds rating = round(mean of the N ratings, 2) and reviews_count = N, and
    the same final record results from every submission order.  (The claim as
    literally stated, quantifying over all ways of addressing the provider, is
    refuted by C1_counterexample: two spellings of the same ObjectId are
    aggregated separately because the reviews are grouped by the raw string.) -/
theorem C1_aggregate_correct (st : DB) (s : String) (oid : List ℕ)
    (inps : List ReviewCreateIn)
    (hs : objectIdOfString s = some oid)
    (hfind : (findP st.providers oid).isSome = true)
    (h0 : st.reviews.filter (fun r => r.provider_id == s) = [])
    (hne : inps ≠ [])
    (hall : ∀ i ∈ inps, i.provider_id = s) :
    ((findP (processReviews st inps).providers oid).map
        (fun p => (p.rating, p.reviews_count)) =
      some (round2 ((ratingsSum (inps.map mkReviewDoc) : ℚ) / (inps.length : ℚ)),
            inps.length)) ∧
    (∀ inps2, inps2.Perm inps →
      (findP (processReviews st inps2).providers oid).map
          (fun p => (p.rating, p.reviews_count)) =
        some (round2 ((ratingsSum (inps.map mkReviewDoc) : ℚ) / (inps.length : ℚ)),
              inps.length)) := by
  have main : ∀ l : List ReviewCreateIn, l ≠ [] → (∀ i ∈ l, i.provider_id = s) →
      (findP (processReviews st l).providers oid).map
          (fun p => (p.rating, p.reviews_count)) =
        some (round2 ((ratingsSum (l.map mkReviewDoc) : ℚ) / (l.length : ℚ)), l.length) := by
    intro l hl hall2
    obtain ⟨-, -, hprov⟩ :=
      processReviews_run s oid hs l st st.providers [] hall2 hfind h0 (Or.inl rfl)
    rw [hprov hl, findP_update]
    rcases Option.isSome_iff_exists.mp hfind with ⟨p, hp⟩
    rw [hp]
    simp
  refine ⟨main inps hne hall, fun inps2 hperm => ?_⟩
  have hne2 : inps2 ≠ [] := by
    intro h
    subst h
    exact hne hperm.nil_eq.symm
  have hall2 : ∀ i ∈ inps2, i.provider_id = s := fun i hi => hall i (hperm.mem_iff.mp hi)
  have hsum : ratingsSum (inps2.map mkReviewDoc) = ratingsSum (inps.map mkReviewDoc) := by
    simp only [ratingsSum]
    exact ((hperm.map mkReviewDoc).map _).sum_eq
  have hlen : inps2.length = inps.length := hperm.length_eq
  rw [main inps2 hne2 hall2, hsum, hlen]

/-- Witness for C1 at a concrete run: two reviews (5 then 1) under the same id
    string leave the provider at rating 3, reviews_count 2. -/
theorem C1_witness :
    (findP (processReviews stA [revLo, revLo1]).providers oidA).map
        (fun p => (p.rating, p.reviews_count)) = some (3, 2) := by
  have h := (C1_aggregate_correct stA sLo oidA [revLo, revLo1] (by decide)
    (by decide) (by decide) (by decide) (by decide)).1
  rw [h]
  have hsum : ratingsSum ([revLo, revLo1].map mkReviewDoc) = 6 := by decide
  rw [hsum]
  have h3 : ((6 : ℤ) : ℚ) / (([revLo, revLo1].length : ℕ) : ℚ) = 3 := by norm_num
  rw [h3, round2, rhe]
  norm_num

/-- C1 as literally stated is false: the strings sLo and sUp are two spellings
    of the same ObjectId, so revLo and revUp are both reviews submitted against
    the provider oidA, and both submissions succeed; yet after the two reviews
    the provider record holds reviews_count = 1 (not N = 2) and rating = 1
    (not round(mean, 2) = 3), and the opposite order ends at rating = 5, so the
    final state also depends on the submission order. -/
theorem C1_counterexample :
    objectIdOfString sLo = some oidA ∧
    objectIdOfString sUp = some oidA ∧
    (findP (processReviews stA [revLo, revUp]).providers oidA).map
        (fun p => (p.rating, p.reviews_count)) = some (1, 1) ∧
    (findP (processReviews stA [revUp, revLo]).providers oidA).map
        (fun p => (p.rating, p.reviews_count)) = some (5, 1) ∧
    round2 ((ratingsSum ([revLo, revUp].map mkReviewDoc) : ℚ) /
      (([revLo, revUp].length : ℕ) : ℚ)) = 3 ∧
    (1 : ℚ) ≠ 3 ∧ (1 : ℕ) ≠ 2 ∧
    ((1 : ℚ), (1 : ℕ)) ≠ ((5 : ℚ), (1 : ℕ)) := by
  have hfLo : findP stA.providers oidA = some provA := by simp [stA, findP]
  -- run 1: revLo then revUp
  have s1 : create_review stA revLo = (Except.ok (), stepDB stA revLo oidA) :=
    create_review_ok stA revLo oidA provA (by decide) hfLo
  have st1prov : (stepDB stA revLo oidA).providers =
      update_provider_aggregate stA.providers oidA
        (round2 ((ratingsSum (fetchedAfter stA revLo) : ℚ) /
          ((fetchedAfter stA revLo).length : ℚ)))
        (fetchedAfter stA revLo).length := rfl
  obtain ⟨p2, hp2⟩ : ∃ p2, findP (stepDB stA revLo oidA).providers oidA = some p2 := by
    rw [st1prov, findP_update, hfLo]
    exact ⟨_, rfl⟩
  have s2 : create_review (stepDB stA revLo oidA) revUp =
      (Except.ok (), stepDB (stepDB stA revLo oidA) revUp oidA) :=
    create_review_ok _ revUp oidA p2 (by decide) hp2
  have run1 : processReviews stA [revLo, revUp] = stepDB (stepDB stA revLo oidA) revUp oidA := by
    simp [processReviews, s1, s2]
  have hfetch2 : fetchedAfter (stepDB stA revLo oidA) revUp = [mkReviewDoc revUp] := by decide
  have final1 : (stepDB (stepDB stA revLo oidA) revUp oidA).providers =
      update_provider_aggregate stA.providers oidA
        (round2 ((ratingsSum [mkReviewDoc revUp] : ℚ) / (([mkReviewDoc revUp].length : ℕ) : ℚ)))
        [mkReviewDoc revUp].length := by
    have h0 : (stepDB (stepDB stA revLo oidA) revUp oidA).providers =
        update_provider_aggregate (stepDB stA revLo oidA).providers oidA
          (round2 ((ratingsSum (fetchedAfter (stepDB stA revLo oidA) revUp) : ℚ) /
            ((fetchedAfter (stepDB stA revLo oidA) revUp).length : ℚ)))
          (fetchedAfter (stepDB stA revLo oidA) revUp).length := rfl
    rw [h0, hfetch2, st1prov, update_update]
  have v1 : round2 ((ratingsSum [mkReviewDoc revUp] : ℚ) /
      (([mkReviewDoc revUp].length : ℕ) : ℚ)) = 1 := by
    have hsum : ratingsSum [mkReviewDoc revUp] = 1 := by decide
    rw [hsum]
    have hq : ((1 : ℤ) : ℚ) / (([mkReviewDoc revUp].length : ℕ) : ℚ) = 1 := by norm_num
    rw [hq, round2, rhe]
    norm_num
  have m1 : (findP (processReviews stA [revLo, revUp]).providers oidA).map
      (fun p => (p.rating, p.reviews_count)) = some (1, 1) := by
    rw [run1, final1, findP_update, hfLo, v1]
    rfl
  -- run 2: revUp then revLo
  have s1b : create_review stA revUp = (Except.ok (), stepDB stA revUp oidA) :=
    create_review_ok stA revUp oidA provA (by decide) hfLo
  have st1bprov : (stepDB stA revUp oidA).providers =
      update_provider_aggregate stA.providers oidA
        (round2 ((ratingsSum (fetchedAfter stA revUp) : ℚ) /
          ((fetchedAfter stA revUp).length : ℚ)))
        (fetchedAfter stA revUp).length := rfl
  obtain ⟨p2b, hp2b⟩ : ∃ p2b, findP (stepDB stA revUp oidA).providers oidA = some p2b := by
    rw [st1bprov, findP_update, hfLo]
    exact ⟨_, rfl⟩
  have s2b : create_review (stepDB stA revUp oidA) revLo =
      (Except.ok (), stepDB (stepDB stA revUp oidA) revLo oidA) :=
    create_review_ok _ revLo oidA p2b (by decide) hp2b
  have run2 : processReviews stA [revUp, revLo] = stepDB (stepDB stA revUp oidA) revLo oidA := by
    simp [processReviews, s1b, s2b]
  have hfetch2b : fetchedAfter (stepDB stA revUp oidA) revLo = [mkReviewDoc revLo] := by decide
  have final2 : (stepDB (stepDB stA revUp oidA) revLo oidA).providers =
      update_provider_aggregate stA.providers oidA
        (round2 ((ratingsSum [mkReviewDoc revLo] : ℚ) / (([mkReviewDoc revLo].length : ℕ) : ℚ)))
        [mkReviewDoc revLo].length := by
    have h0 : (stepDB (stepDB stA revUp oidA) revLo oidA).providers =
        update_provider_aggregate (stepDB stA revUp oidA).providers oidA
          (round2 ((ratingsSum (fetchedAfter (stepDB stA revUp oidA) revLo) : ℚ) /
            ((fetchedAfter (stepDB stA revUp oidA) revLo).length : ℚ)))
          (fetchedAfter (stepDB stA revUp oidA) revLo).length := rfl
    rw [h0, hfetch2b, st1bprov, update_update]
  have v2 : round2 ((ratingsSum [mkReviewDoc revLo] : ℚ) /
      (([mkReviewDoc revLo].length : ℕ) : ℚ)) = 5 := by
    have hsum : ratingsSum [mkReviewDoc revLo] = 5 := by decide
    rw [hsum]
    have hq : ((5 : ℤ) : ℚ) / (([mkReviewDoc revLo].length : ℕ) : ℚ) = 5 := by norm_num
    rw [hq, round2, rhe]
    norm_num
  have m2 : (findP (processReviews stA [revUp, revLo]).providers oidA).map
      (fun p => (p.rating, p.reviews_count)) = some (5, 1) := by
    rw [run2, final2, findP_update, hfLo, v2]
    rfl
  -- the aggregate the claim demands
  have vmean : round2 ((ratingsSum ([revLo, revUp].map mkReviewDoc) : ℚ) /
      (([revLo, revUp].length : ℕ) : ℚ)) = 3 := by
    have hsum : ratingsSum ([revLo, revUp].map mkReviewDoc) = 6 := by decide
    rw [hsum]
    have hq : ((6 : ℤ) : ℚ) / ((([revLo, revUp] : List ReviewCreateIn).length : ℕ) : ℚ) = 3 := by
      norm_num
    rw [hq, round2, rhe]
    norm_num
  refine ⟨by decide, by decide, m1, m2, vmean, by norm_num, by norm_num, ?_⟩
  intro h
  have := congrArg Prod.fst h
  norm_num at this

/-- A review with out-of-range rating 6, addressed to the stored provider. -/
def rev6 : ReviewCreateIn :=
  { provider_id := sLo, reviewer_name := "E", rating := 6, comment := none }

/-- C3 names a bug: main.py's create_review validates against its own
    ReviewCreate model, whose rating field carries no bounds, not against
    schemas.Review (rating ge=1, le=5).  A rating of 6 violates the declared
    review schema, yet the call succeeds and the document is inserted. -/
theorem C3_rating_not_validated :
    reviewSchemaRatingOk rev6 = false ∧
    (create_review stA rev6).1 = Except.ok () ∧
    (create_review stA rev6).2.reviews = [mkReviewDoc rev6] := by
  have hfLo : findP stA.providers oidA = some provA := by simp [stA, findP]
  have hstep : create_review stA rev6 = (Except.ok (), stepDB stA rev6 oidA) :=
    create_review_ok stA rev6 oidA provA (by decide) hfLo
  refine ⟨by decide, by rw [hstep], by rw [hstep]; rfl⟩

/-- A print request violating the declared schema three ways: pages = 0,
    an invalid color, and a requester_email that is not an email. -/
def badPR : PrintRequestCreateIn :=
  { provider_id := sLo, requester_name := "R", requester_email := "not-an-email"
    pages := 0, color := "rainbow", notes := none }

/-- C4 names a bug: main.py's create_print_request validates against its own
    PrintRequestCreate model, which carries none of schemas.PrintRequest's
    constraints (pages ge=1, color Literal, EmailStr).  The input badPR violates
    the declared schema, yet the call succeeds and the document is inserted. -/
theorem C4_schema_not_validated :
    printRequestSchemaOk badPR = false ∧
    (create_print_request stA badPR).1 = Except.ok () ∧
    (create_print_request stA badPR).2.printrequests = [mkPrintRequestDoc badPR] := by
  have hfLo : findP stA.providers oidA = some provA := by simp [stA, findP]
  have hid : objectIdOfString badPR.provider_id = some oidA := by decide
  have hrun : create_print_request stA badPR =
      (Except.ok (), { stA with
        printrequests := stA.printrequests ++ [mkPrintRequestDoc badPR] }) := by
    simp [create_print_request, hid, hfLo]
  refine ⟨by decide, by rw [hrun], by rw [hrun]; rfl⟩

theorem containsCI_empty_needle (hay : String) : containsCI hay "" = true := by
  simp only [containsCI]
  apply List.any_eq_true.mpr
  exact ⟨0, List.mem_range.mpr (Nat.succ_pos _), rfl⟩

/-- The PCRE metacharacters: the characters with special meaning in a regular
    expression pattern (outside character classes).  A pattern free of these is
    matched by $regex as a plain substring search (case-insensitive under
    option i); every other character, letters and digits but also spaces,
    hyphens and the like, stands for itself. -/
def isRegexMeta (c : Char) : Bool :=
  c == '\\' || c == '^' || c == '$' || c == '.' || c == '[' || c == ']' ||
  c == '|' || c == '(' || c == ')' || c == '*' || c == '+' || c == '?' ||
  c == '\x7b' || c == '\x7d'

theorem maskPrefixAt_no_meta (ps : List Char) (hp : ∀ c ∈ ps, isRegexMeta c = false) :
    ∀ ts, maskPrefixAt ps ts = lcPrefixAt ps ts := by
  induction ps with
  | nil => intro ts; rfl
  | cons p ps2 ih =>
    intro ts
    cases ts with
    | nil => rfl
    | cons t ts2 =>
      have hpp : isRegexMeta p = false := hp p (List.mem_cons_self p ps2)
      have hpd : (p == '.') = false := by
        apply beq_eq_false_iff_ne.mpr
        intro h
        subst h
        exact absurd hpp (by decide)
      simp only [maskPrefixAt, lcPrefixAt, hpd, Bool.false_or]
      rw [ih (fun c hc => hp c (List.mem_cons_of_mem p hc)) ts2]

theorem regexMatchI_eq_containsCI (pat text : String)
    (hp : ∀ c ∈ pat.data, isRegexMeta c = false) :
    regexMatchI pat text = containsCI text pat := by
  simp only [regexMatchI, containsCI]
  have h : (fun i => maskPrefixAt pat.data (text.data.drop i)) =
      (fun i => lcPrefixAt pat.data (text.data.drop i)) := by
    funext i
    exact maskPrefixAt_no_meta pat.data hp (text.data.drop i)
  rw [h]

/-- C6 (amended): for every filter string free of regex metacharacters —
    letters, digits, spaces, hyphens and so on — list_providers returns exactly
    the stored providers whose city contains the filter as a case-insensitive
    substring, in store order, capped at 50.  (For a general filter string the
    code matches it as a regular expression, refuted in C6_counterexample.) -/
theorem C6_city_filter (st : DB) (c : String)
    (hp : ∀ ch ∈ c.data, isRegexMeta ch = false) :
    list_providers st (some c) =
      ((st.providers.filter (fun x => containsCI x.2.city c)).take 50).map toPublic := by
  simp only [list_providers]
  congr 1
  congr 1
  apply List.filter_congr
  intro x _
  simp only [providerMatches]
  by_cases hc : c = ""
  · subst hc
    rw [if_pos rfl, containsCI_empty_needle]
  · rw [if_neg hc, regexMatchI_eq_containsCI c x.2.city hp]

/-- Witness for C6 at the spec's example filter "dam" on a stored provider in
    Amsterdam. -/
theorem C6_witness :
    list_providers stA (some "dam") =
      ((stA.providers.filter (fun x => containsCI x.2.city "dam")).take 50).map toPublic :=
  C6_city_filter stA "dam" (by decide)

/-- A provider whose city is the single letter X. -/
def provX : ProviderDoc :=
  { display_name := "X"
    city := "X"
    description := none
    price_per_page := 1
    color_supported := true
    duplex := true
    rating := 0
    reviews_count := 0 }

/-- A database holding only provX. -/
def stDot : DB := { providers := [(oidA, provX)], reviews := [], printrequests := [] }

/-- C6 as stated is false for filters containing regex metacharacters: with
    cityFilter ".", the provider whose city is "X" is returned — the dot
    matches any character — although "." does not occur in "X" in any letter
    case, so the substring reading demands the empty result. -/
theorem C6_counterexample :
    containsCI "X" "." = false ∧
    (stDot.providers.filter (fun x => containsCI x.2.city ".")).length = 0 ∧
    (list_providers stDot (some ".")).length = 1 := by
  refine ⟨by decide, by decide, ?_⟩
  have hx : providerMatches (some ".") provX = true := by decide
  have hfil : stDot.providers.filter (fun x => providerMatches (some ".") x.2) =
      [(oidA, provX)] := by
    simp [stDot, hx]
  simp [list_providers, hfil]

/-- C8: both listing endpoints pass limit=50 to the store's find, so at most 50
    records come back, for every database state and query. -/
theorem C8_limit_cap (st : DB) (city : Option String) (pid : String) :
    (list_providers st city).length ≤ 50 ∧ (list_reviews st pid).length ≤ 50 := by
  constructor
  · simp only [list_providers, List.length_map]
    exact List.length_take_le 50 _
  · exact List.length_take_le 50 _

/-- C10: an empty city filter behaves exactly like an absent one, because the
    handler's truthiness test treats the empty string as no filter, so all
    providers are returned up to the cap. -/
theorem C10_empty_filter (st : DB) :
    list_providers st (some "") = list_providers st none := by
  simp only [list_providers]
  have h : (fun x : List ℕ × ProviderDoc => providerMatches (some "") x.2) =
      (fun x : List ℕ × ProviderDoc => providerMatches none x.2) := by
    funext x
    simp [providerMatches]
  rw [h]

/-- Seven stored 3-star reviews of the provider, under its lowercase id. -/
def doc3 : ReviewDoc :=
  { provider_id := sLo, reviewer_name := "D", rating := 3, comment := none }

/-- A database where the provider already has seven 3-star reviews. -/
def st9 : DB :=
  { providers := [(oidA, provA)], reviews := List.replicate 7 doc3, printrequests := [] }

/-- A 4-star review: inserting it makes the mean (7·3 + 4) / 8 = 3.125. -/
def rev4 : ReviewCreateIn :=
  { provider_id := sLo, reviewer_name := "E", rating := 4, comment := none }

/-- C9: the aggregate written by create_review uses round-half-to-even at two
    decimals: rhe q is within 1/2 of q and lands on an even integer at exact
    ties; and end to end, a review making the exact mean 3.125 leaves the
    provider's stored rating at 3.12 (= 312/100), not 3.13. -/
theorem C9_round_half_even :
    (∀ q : ℚ, |q - (rhe q : ℚ)| ≤ 1/2 ∧ (|q - (rhe q : ℚ)| = 1/2 → rhe q % 2 = 0)) ∧
    ((findP (create_review st9 rev4).2.providers oidA).map (fun p => p.rating) =
      some (312/100)) ∧
    round2 (25/8) = 312/100 ∧ (312 : ℚ)/100 ≠ 313/100 := by
  have hchar : ∀ q : ℚ, |q - (rhe q : ℚ)| ≤ 1/2 ∧ (|q - (rhe q : ℚ)| = 1/2 → rhe q % 2 = 0) := by
    intro q
    have h0 : (⌊q⌋ : ℚ) ≤ q := Int.floor_le q
    have h1 : q < ⌊q⌋ + 1 := Int.lt_floor_add_one q
    rw [rhe]
    by_cases hlt : q - ⌊q⌋ < 1/2
    · rw [if_pos hlt]
      constructor
      · rw [abs_of_nonneg (by linarith)]
        linarith
      · intro habs
        rw [abs_of_nonneg (by linarith)] at habs
        linarith
    · rw [if_neg hlt]
      by_cases hgt : 1/2 < q - ⌊q⌋
      · rw [if_pos hgt]
        push_cast
        constructor
        · rw [abs_of_nonpos (by linarith)]
          linarith
        · intro habs
          rw [abs_of_nonpos (by linarith)] at habs
          linarith
      · rw [if_neg hgt]
        have heq : q - ⌊q⌋ = 1/2 := le_antisymm (not_lt.mp hgt) (not_lt.mp hlt)
        by_cases hev : ⌊q⌋ % 2 = 0
        · rw [if_pos hev]
          constructor
          · rw [abs_of_nonneg (by linarith)]
            linarith
          · intro _
            exact hev
        · rw [if_neg hev]
          push_cast
          constructor
          · rw [abs_of_nonpos (by linarith)]
            linarith
          · intro _
            omega
  have hfLo9 : findP st9.providers oidA = some provA := by simp [st9, findP]
  have hs9 : create_review st9 rev4 = (Except.ok (), stepDB st9 rev4 oidA) :=
    create_review_ok st9 rev4 oidA provA (by decide) hfLo9
  have hfetch9 : fetchedAfter st9 rev4 = List.replicate 7 doc3 ++ [mkReviewDoc rev4] := by
    decide
  have hval : round2 ((ratingsSum (fetchedAfter st9 rev4) : ℚ) /
      ((fetchedAfter st9 rev4).length : ℚ)) = 312/100 := by
    have hsum9 : ratingsSum (fetchedAfter st9 rev4) = 25 := by decide
    have hlen9 : (fetchedAfter st9 rev4).length = 8 := by decide
    rw [hsum9, hlen9]
    have hq : ((25 : ℤ) : ℚ) / ((8 : ℕ) : ℚ) = 25/8 := by norm_num
    rw [hq, round2, rhe]
    norm_num
  have hm : (findP (create_review st9 rev4).2.providers oidA).map (fun p => p.rating) =
      some (312/100) := by
    rw [hs9]
    show (findP (stepDB st9 rev4 oidA).providers oidA).map (fun p => p.rating) =
      some (312/100)
    have hstep : (stepDB st9 rev4 oidA).providers =
        update_provider_aggregate st9.providers oidA
          (round2 ((ratingsSum (fetchedAfter st9 rev4) : ℚ) /
            ((fetchedAfter st9 rev4).length : ℚ)))
          (fetchedAfter st9 rev4).length := rfl
    rw [hstep, findP_update, hfLo9, hval]
    rfl
  have hr : round2 (25/8) = 312/100 := by
    rw [round2, rhe]
    norm_num
  exact ⟨hchar, hm, hr, by norm_num⟩

/-- Witness for C9's tie hypothesis at q = 312.5: the distance to rhe q is
    exactly one half and rhe q is even. -/
theorem C9_witness :
    |(625/2 : ℚ) - (rhe (625/2 : ℚ) : ℚ)| = 1/2 ∧ rhe (625/2 : ℚ) % 2 = 0 := by
  have habs : |(625/2 : ℚ) - (rhe (625/2 : ℚ) : ℚ)| = 1/2 := by
    rw [rhe]
    norm_num
  exact ⟨habs, (C9_round_half_even.1 (625/2 : ℚ)).2 habs⟩
